import Mathlib

/-!
Verification of the data-access and cache-aside core of the
production-api-framework repository.

The definitions below are a shallow embedding of the TypeScript source:

* `CacheService.*`    — `src/services/cache.service.ts`
* the `CacheOp` traces — the cache calls issued by `UserService` /
  `TaskService` mutation paths (`src/services/user.service.ts`,
  `src/services/task.service.ts`)
* `BaseRepository.*`  — `src/core/database/base.repository.ts`
* `TaskRepository.*`  — `src/repositories/task.repository.ts`

The durable store underneath `BaseRepository` is TypeORM's `Repository`,
whose operation contract is external to the repository's own sources; its
primitives (`ormFindOne`, `ormSoftDelete`, `ormRestore`, `ormSave`) are
modelled from the specification's operation contract (§4.1, §6).
-/

/-! ## Cache layer: `CacheService` (src/services/cache.service.ts) -/

/-- A cache entry: Redis key, the stored (serialized) value, and the TTL it
was written with (`redis.setex key ttl value`).  Serialization is modelled
as the identity: the model's values are the serialized strings. -/
structure CEntry where
  key : String
  value : String
  ttl : Nat
deriving DecidableEq

/-- The state of the Redis backend as seen through `CacheService`.
`failed = true` models the backend being unreachable: every `redis.*`
call throws, landing each method in its `catch` block. -/
structure CacheState where
  entries : List CEntry
  failed : Bool
deriving DecidableEq

/-- Error kind thrown out of the cache layer (only `increment` /
`decrement` rethrow; see `CacheService.increment`). -/
inductive CacheErr where
  | backend
deriving DecidableEq

/-- Producer / repository error, carried by `Except` (a thrown JS `Error`
is modelled as `Except.error`). -/
abbrev PErr := String

namespace CacheService

/-- `redis.keys pattern` glob match, restricted to the shapes the service
uses: a literal key, or a literal prefix followed by `*`. -/
def globMatch (pat key : String) : Bool :=
  match pat.data.reverse with
  | '*' :: rest => rest.reverse.isPrefixOf key.data
  | _ => pat == key

/-- Raw Redis lookup of a key's entry. -/
def lookup (st : CacheState) (key : String) : Option CEntry :=
  st.entries.find? (fun e => e.key == key)

/-- `get(key)`: returns the cached value, `null` on a true miss, and —
because the whole body is wrapped in `try`/`catch` returning `null` —
also `null` on any backend error.  (`if (!value) return null` makes an
empty stored string a miss as well.) -/
def get (st : CacheState) (key : String) : Option String :=
  if st.failed then none
  else
    match lookup st key with
    | none => none
    | some e => if e.value == "" then none else some e.value

/-- `set(key, value, ttl)`: `redis.setex`; returns `true`, or `false` on a
backend error without raising. -/
def set (st : CacheState) (key value : String) (ttl : Nat) : CacheState × Bool :=
  if st.failed then (st, false)
  else
    ({ st with entries := ⟨key, value, ttl⟩ :: st.entries.filter (fun e => e.key != key) },
     true)

/-- `del(key)`: `redis.del`, `result > 0`; `false` on a backend error. -/
def del (st : CacheState) (key : String) : CacheState × Bool :=
  if st.failed then (st, false)
  else
    (( { st with entries := st.entries.filter (fun e => e.key != key) } ),
     st.entries.any (fun e => e.key == key))

/-- `delPattern(pattern)`: `redis.keys` then `redis.del` of every match
(enumerate-then-delete); returns the number of keys deleted, `0` on a
backend error. -/
def delPattern (st : CacheState) (pat : String) : CacheState × Nat :=
  if st.failed then (st, 0)
  else
    let matched := st.entries.filter (fun e => globMatch pat e.key)
    if matched.length = 0 then (st, 0)
    else
      ({ st with entries := st.entries.filter (fun e => !globMatch pat e.key) },
       matched.length)

/-- `exists(key)`: `redis.exists === 1`; `false` on a backend error. -/
def existsKey (st : CacheState) (key : String) : Bool :=
  if st.failed then false
  else st.entries.any (fun e => e.key == key)

/-- `ttl(key)`: `redis.ttl` (the entry's remaining TTL, `-2` for a missing
key); `-1` on a backend error. -/
def ttl (st : CacheState) (key : String) : Int :=
  if st.failed then -1
  else
    match lookup st key with
    | some e => (e.ttl : Int)
    | none => -2

/-- `increment(key, amount)`: `redis.incrby`; on a backend error the
`catch` block RETHROWS (`throw error`) instead of failing soft. -/
def increment (st : CacheState) (key : String) (amount : Int) : Except CacheErr (CacheState × Int) :=
  if st.failed then .error .backend
  else
    let cur := ((lookup st key).map CEntry.value).bind String.toInt? |>.getD 0
    let ttlKeep := ((lookup st key).map CEntry.ttl).getD 0
    .ok ({ st with entries :=
            ⟨key, toString (cur + amount), ttlKeep⟩ :: st.entries.filter (fun e => e.key != key) },
         cur + amount)

/-- `decrement(key, amount)`: `redis.decrby`; same rethrow as `increment`. -/
def decrement (st : CacheState) (key : String) (amount : Int) : Except CacheErr (CacheState × Int) :=
  if st.failed then .error .backend
  else increment st key (-amount)

/-- `getOrSet(key, callback, ttl)`.  The producer is modelled as a function
of its invocation index so a first failed call and a retry can differ.
Returns the final cache state, how many times the producer ran, and the
value returned (or the error propagated) to the caller.

The body is `try { get; hit → return; result = callback(); set; return }
catch { return callback() }`; `get` and `set` trap their own backend
errors, so the `catch` is reachable only from a `callback()` throw. -/
def getOrSet (st : CacheState) (key : String) (producer : Nat → Except PErr String)
    (ttl : Nat) : CacheState × Nat × Except PErr String :=
  match get st key with
  | some v => (st, 0, .ok v)
  | none =>
    match producer 0 with
    | .ok r => ((set st key r ttl).1, 1, .ok r)
    | .error _ => (st, 2, producer 1)

end CacheService

/-! ## Cache effects of the service mutation paths
(src/services/user.service.ts, src/services/task.service.ts)

Each mutating service method performs its durable-store write and then a
fixed sequence of cache calls; the sequences are captured as `CacheOp`
traces, parameterized by the pre/post-mutation fields the code consults.
Key strings use the code's `CachePrefix` values (`user:`, `task:`,
`user_tasks:`, `task_stats:`) and `CacheTTL` values (LONG = 900,
MEDIUM = 300). -/

/-- One cache call made by a service mutation path. -/
inductive CacheOp where
  | set (key value : String) (ttl : Nat)
  | del (key : String)
  | delPattern (pat : String)
deriving DecidableEq

/-- Whether a cache call writes a value into the cache. -/
def CacheOp.isSet : CacheOp → Bool
  | .set _ _ _ => true
  | _ => false

/-- Apply one trace element to the cache backend. -/
def applyCacheOp (st : CacheState) : CacheOp → CacheState
  | .set k v t => (CacheService.set st k v t).1
  | .del k => (CacheService.del st k).1
  | .delPattern p => (CacheService.delPattern st p).1

/-- Apply a whole trace in order. -/
def applyCacheOps (st : CacheState) (ops : List CacheOp) : CacheState :=
  ops.foldl applyCacheOp st

namespace ServiceOps

/-- `CacheService.invalidateUserCache(userId)`: deletes `user:{id}`,
sweeps `user_tasks:{id}:*`, deletes `task_stats:{id}`. -/
def invalidateUserCacheOps (uid : String) : List CacheOp :=
  [.del ("user:" ++ uid),
   .delPattern ("user_tasks:" ++ uid ++ ":*"),
   .del ("task_stats:" ++ uid)]

/-- `CacheService.invalidateTaskCache(taskId)`: deletes `task:{id}`. -/
def invalidateTaskCacheOps (tid : String) : List CacheOp :=
  [.del ("task:" ++ tid)]

/-- `UserService.createUser`: after the insert, caches the new user
(`cacheService.set(USER + id, user, CacheTTL.LONG)`). -/
def createUserCacheOps (uid serialized : String) : List CacheOp :=
  [.set ("user:" ++ uid) serialized 900]

/-- `UserService.updateUser`: `invalidateUserCache(id)` after the write. -/
def updateUserCacheOps (uid : String) : List CacheOp :=
  invalidateUserCacheOps uid

/-- `UserService.deleteUser` (soft delete): `invalidateUserCache(id)`. -/
def deleteUserCacheOps (uid : String) : List CacheOp :=
  invalidateUserCacheOps uid

/-- `TaskService.createTask`: caches the new task
(`cacheService.set(TASK + id, task, CacheTTL.MEDIUM)`), then invalidates
the assignee's cache when the task is created assigned. -/
def createTaskCacheOps (tid : String) (assigneeId : Option String)
    (serialized : String) : List CacheOp :=
  .set ("task:" ++ tid) serialized 300 ::
    (match assigneeId with
     | some uid => invalidateUserCacheOps uid
     | none => [])

/-- `TaskService.updateTask`: invalidates the task key, the pre-mutation
assignee (when non-null), and the DTO's new assignee when it is non-null
and differs from the pre-mutation one. -/
def updateTaskCacheOps (tid : String) (oldAssignee newAssignee : Option String) :
    List CacheOp :=
  invalidateTaskCacheOps tid
    ++ (match oldAssignee with
        | some a => invalidateUserCacheOps a
        | none => [])
    ++ (match newAssignee with
        | some b => if oldAssignee ≠ some b then invalidateUserCacheOps b else []
        | none => [])

/-- `TaskService.updateStatus`: invalidates the task key and the (unchanged)
assignee's cache when non-null. -/
def updateStatusCacheOps (tid : String) (assignee : Option String) : List CacheOp :=
  invalidateTaskCacheOps tid
    ++ (match assignee with
        | some a => invalidateUserCacheOps a
        | none => [])

/-- `TaskService.assignTask(taskId, userId)`: invalidates the task key and
the NEW assignee's cache only — the method never reads the pre-mutation
assignee, so the previous owner's entries are not touched. -/
def assignTaskCacheOps (tid uid : String) : List CacheOp :=
  invalidateTaskCacheOps tid ++ invalidateUserCacheOps uid

/-- `TaskService.unassignTask`: invalidates the task key and the
pre-mutation assignee's cache when non-null. -/
def unassignTaskCacheOps (tid : String) (oldAssignee : Option String) : List CacheOp :=
  invalidateTaskCacheOps tid
    ++ (match oldAssignee with
        | some a => invalidateUserCacheOps a
        | none => [])

/-- `TaskService.deleteTask` (soft delete): invalidates the task key and
the assignee's cache when non-null. -/
def deleteTaskCacheOps (tid : String) (assignee : Option String) : List CacheOp :=
  invalidateTaskCacheOps tid
    ++ (match assignee with
        | some a => invalidateUserCacheOps a
        | none => [])

end ServiceOps

/-! ## Durable store rows and the TypeORM primitives -/

/-- A persisted row: `id`, the entity's domain columns (`fields`), and the
store-managed timestamps.  Timestamps are abstract instants (`Nat`). -/
structure Row (α : Type) where
  id : String
  fields : α
  createdAt : Nat
  updatedAt : Nat
  deletedAt : Option Nat
deriving DecidableEq

/-- One entity table. -/
abbrev Store (α : Type) : Type := List (Row α)

/-- A thrown JS `Error` as the boundary's `errorHandler` middleware sees it
(the `ApiError` shape of src/middlewares/errorHandler.ts, bundled in
src/src/middlewares/validation.middleware.ts): a message plus an optional
`statusCode`.  `BaseRepository` and the services only ever throw plain
`new Error(message)`, which carries no `statusCode`. -/
structure ApiError where
  message : String
  statusCode : Option Nat
deriving DecidableEq

/-- `new Error(message)`: a plain error, no `statusCode` attached. -/
def plainError (message : String) : ApiError :=
  ⟨message, none⟩

/-- `new AppError(message, statusCode)` (same middleware file, default 500):
the program's only way to attach a `statusCode` — no repository or service
path constructs one. -/
def AppError (message : String) (statusCode : Nat) : ApiError :=
  ⟨message, some statusCode⟩

/-- The user-facing status the `errorHandler` middleware sends:
`err.statusCode || 500` (JS `||`: an absent — or zero — `statusCode` falls
back to 500). -/
def errorHandlerStatus (e : ApiError) : Nat :=
  match e.statusCode with
  | some n => if n = 0 then 500 else n
  | none => 500

/-- Modelled from the spec: TypeORM `repository.findOne({where: {id}})` —
resolves an id to a row, "excludes soft-deleted rows by default" (§4.1). -/
def ormFindOne {α : Type} (s : Store α) (id : String) : Option (Row α) :=
  s.find? (fun r => r.id == id && r.deletedAt.isNone)

/-- Modelled from the spec: TypeORM `repository.softDelete(id)` — "sets
`deletedAt`" on the live row with that id, reporting the number of affected
rows (§4.1). -/
def ormSoftDelete {α : Type} (s : Store α) (id : String) (now : Nat) : Store α × Nat :=
  ((s : List (Row α)).map
     (fun r => if r.id == id && r.deletedAt.isNone then { r with deletedAt := some now } else r),
   ((s : List (Row α)).filter (fun r => r.id == id && r.deletedAt.isNone)).length)

/-- Modelled from the spec: TypeORM `repository.restore(id)` — "clears
`deletedAt`; no-op/false if the row was not soft-deleted" (§4.1), reporting
the number of affected rows. -/
def ormRestore {α : Type} (s : Store α) (id : String) : Store α × Nat :=
  ((s : List (Row α)).map
     (fun r => if r.id == id && !r.deletedAt.isNone then { r with deletedAt := none } else r),
   ((s : List (Row α)).filter (fun r => r.id == id && !r.deletedAt.isNone)).length)

/-- Modelled from the spec: TypeORM `repository.save(entity)` for an entity
loaded from the table — persists it back over the row with the same id. -/
def ormSave {α : Type} (s : Store α) (row : Row α) : Store α :=
  (s : List (Row α)).map (fun r => if r.id == row.id then row else r)

/-! ## `BaseRepository` (src/core/database/base.repository.ts) -/

/-- The repository's `PaginatedResult<T>` shape. -/
structure PaginatedResult (α : Type) where
  data : List α
  page : Nat
  limit : Nat
  total : Nat
  totalPages : Nat
  hasNext : Bool
  hasPrevious : Bool
deriving DecidableEq

namespace BaseRepository

/-- `findById(id)`: `repository.findOne({where: {id}})` (soft-delete scope
applies). -/
def findById {α : Type} (s : Store α) (id : String) : Option (Row α) :=
  ormFindOne s id

/-- `findAll(options)` over the already-matching, non-soft-deleted rows
`rows` (what `findAndCount` enumerates for the given `where`): defaults
`page = options.page || 1`, `limit = options.limit || 10` (JS `||`, so 0
also falls back), `skip = (page - 1) * limit`, `take = limit`,
`totalPages = Math.ceil(total / limit)`, `hasNext = page < totalPages`,
`hasPrevious = page > 1`. -/
def findAll {α : Type} (rows : List α) (pageOpt limitOpt : Option Nat) : PaginatedResult α :=
  let page := match pageOpt with
    | some n => if n = 0 then 1 else n
    | none => 1
  let limit := match limitOpt with
    | some n => if n = 0 then 10 else n
    | none => 10
  let skip := (page - 1) * limit
  let data := (rows.drop skip).take limit
  let total := rows.length
  let totalPages := (total + limit - 1) / limit
  { data := data, page := page, limit := limit, total := total, totalPages := totalPages,
    hasNext := decide (page < totalPages), hasPrevious := decide (page > 1) }

/-- The rows a default-scope (non-soft-deleted) query ranges over. -/
def liveRows {α : Type} (s : Store α) : List (Row α) :=
  (s : List (Row α)).filter (fun r => r.deletedAt.isNone)

/-- `update(id, partial)`: loads the live row via `findById`; when the id
does not resolve it throws `Error('Entity with id {id} not found')`, which
the method's own catch block rewraps as
`Error('Failed to update entity: ...')` — a plain `Error`, no `statusCode`;
otherwise it `merge`s the partial onto the row (modelled by `patch`) and
`save`s it, refreshing `updatedAt`. -/
def update {α : Type} (s : Store α) (id : String) (patch : α → α) (now : Nat) :
    Except ApiError (Store α × Row α) :=
  match findById s id with
  | none =>
    .error (plainError ("Failed to update entity: Entity with id " ++ id ++ " not found"))
  | some r =>
    let merged : Row α := { r with fields := patch r.fields, updatedAt := now }
    .ok (ormSave s merged, merged)

/-- `softDelete(id)`: `repository.softDelete(id)`, then
`(result.affected || 0) > 0`. -/
def softDelete {α : Type} (s : Store α) (id : String) (now : Nat) : Store α × Bool :=
  let res := ormSoftDelete s id now
  (res.1, decide (res.2 > 0))

/-- `restore(id)`: `repository.restore(id)`, then
`(result.affected || 0) > 0`. -/
def restore {α : Type} (s : Store α) (id : String) : Store α × Bool :=
  let res := ormRestore s id
  (res.1, decide (res.2 > 0))

end BaseRepository

/-! ## `Task` entity and `TaskRepository`
(src/models/task.entity.ts, src/repositories/task.repository.ts) -/

/-- The `TaskStatus` string enum. -/
inductive TaskStatus where
  | TODO
  | IN_PROGRESS
  | DONE
  | ARCHIVED
deriving DecidableEq

/-- The enum member's string value (`TODO = 'TODO'`, ...). -/
def TaskStatus.val : TaskStatus → String
  | .TODO => "TODO"
  | .IN_PROGRESS => "IN_PROGRESS"
  | .DONE => "DONE"
  | .ARCHIVED => "ARCHIVED"

/-- The `TaskPriority` string enum. -/
inductive TaskPriority where
  | LOW
  | MEDIUM
  | HIGH
  | URGENT
deriving DecidableEq

/-- The `Task` entity's domain columns (free-text `description` omitted;
`dueDate` is an abstract instant, `none` = NULL; `assigneeId` nullable). -/
structure TaskFields where
  title : String
  status : TaskStatus
  priority : TaskPriority
  dueDate : Option Nat
  assigneeId : Option String
  createdById : String
deriving DecidableEq

/-- JavaScript `a || b` on enum string values: the left operand unless it
is falsy (the empty string). -/
def jsOrString (a b : String) : String :=
  if a == "" then b else a

/-- The status filter the overdue queries build:
`TaskStatus.TODO || TaskStatus.IN_PROGRESS` — a JS `||` on two enum
strings, not a disjunctive SQL condition. -/
def overdueStatusFilter : String :=
  jsOrString TaskStatus.TODO.val TaskStatus.IN_PROGRESS.val

namespace TaskRepository

/-- The `where` condition of `findOverdue`: `dueDate: LessThan(now)`
(SQL `<`, never satisfied by NULL) and `status: TODO || IN_PROGRESS`. -/
def overdueWhere (now : Nat) (t : Row TaskFields) : Bool :=
  (match t.fields.dueDate with
   | some d => decide (d < now)
   | none => false)
  && (t.fields.status.val == overdueStatusFilter)

/-- `findOverdue(options)`: `findAll` over the live rows matching
`overdueWhere`. -/
def findOverdue (s : Store TaskFields) (now : Nat) (pageOpt limitOpt : Option Nat) :
    PaginatedResult (Row TaskFields) :=
  BaseRepository.findAll ((BaseRepository.liveRows s).filter (overdueWhere now)) pageOpt limitOpt

/-- The stats record returned by `getUserTaskStats`. -/
structure TaskStats where
  total : Nat
  todo : Nat
  inProgress : Nat
  done : Nat
  overdue : Nat
deriving DecidableEq

/-- `getUserTaskStats(userId)`: five counts over the user's live tasks;
the `overdue` count reuses the `status: TODO || IN_PROGRESS` condition of
`findOverdue`. -/
def getUserTaskStats (s : Store TaskFields) (userId : String) (now : Nat) : TaskStats :=
  let live := BaseRepository.liveRows s
  let mine := fun (t : Row TaskFields) => t.fields.assigneeId == some userId
  { total := (live.filter mine).length
    todo := (live.filter (fun t => mine t && t.fields.status.val == TaskStatus.TODO.val)).length
    inProgress :=
      (live.filter (fun t => mine t && t.fields.status.val == TaskStatus.IN_PROGRESS.val)).length
    done := (live.filter (fun t => mine t && t.fields.status.val == TaskStatus.DONE.val)).length
    overdue :=
      (live.filter (fun t =>
        mine t
          && (match t.fields.dueDate with
              | some d => decide (d < now)
              | none => false)
          && (t.fields.status.val == overdueStatusFilter))).length }

end TaskRepository

/-! ## Concrete scenario data used by the closed evaluations -/

/-- A cache populated for owner `userA` (stats entry, one parameterized
list entry) plus the task's single-record entry, backend healthy. -/
def staleOwnerCache : CacheState :=
  ⟨[⟨"task_stats:userA", "staleStats", 60⟩,
    ⟨"user_tasks:userA:p1", "staleList", 60⟩,
    ⟨"task:task1", "oldTask", 300⟩], false⟩

/-- The cache after `TaskService.assignTask("task1", "userB")` runs its
invalidation step against `staleOwnerCache` (the task was previously
assigned to `userA`). -/
def afterAssign : CacheState :=
  applyCacheOps staleOwnerCache (ServiceOps.assignTaskCacheOps "task1" "userB")

/-- A task row for the overdue-query scenarios: TODO, past due, assigned. -/
def demoTodoTask : Row TaskFields :=
  { id := "t1"
    fields := { title := "a", status := .TODO, priority := .HIGH,
                dueDate := some 5, assigneeId := some "u1", createdById := "u0" }
    createdAt := 0, updatedAt := 0, deletedAt := none }

/-- A task row for the overdue-query scenarios: IN_PROGRESS, past due,
assigned — the spec's notion of overdue, but filtered out by the code. -/
def demoInProgressTask : Row TaskFields :=
  { id := "t2"
    fields := { title := "b", status := .IN_PROGRESS, priority := .HIGH,
                dueDate := some 3, assigneeId := some "u1", createdById := "u0" }
    createdAt := 0, updatedAt := 0, deletedAt := none }

/-- A two-task table holding both scenario rows. -/
def demoTaskStore : Store TaskFields :=
  [demoTodoTask, demoInProgressTask]

/-! ## Claim theorems -/

/-- C2: `getOrSet` returns the cached value without invoking the producer
on a hit; on a miss — including any backend failure, which `get` turns into
a miss — it invokes the producer and returns the producer's result; and a
failure of the subsequent cache write (here: the backend being down, so
`set` returns the state unchanged) does not change the returned value. -/
theorem c2_getOrSet_cache_aside (st : CacheState) (key : String)
    (producer : Nat → Except PErr String) (ttl : Nat) :
    (∀ v, CacheService.get st key = some v →
      CacheService.getOrSet st key producer ttl = (st, 0, Except.ok v)) ∧
    (∀ r, CacheService.get st key = none → producer 0 = Except.ok r →
      CacheService.getOrSet st key producer ttl
        = ((CacheService.set st key r ttl).1, 1, Except.ok r)) ∧
    (∀ r, st.failed = true → producer 0 = Except.ok r →
      CacheService.getOrSet st key producer ttl = (st, 1, Except.ok r)) := by
  refine ⟨?_, ?_, ?_⟩
  · intro v h
    unfold CacheService.getOrSet
    rw [h]
  · intro r hmiss hprod
    unfold CacheService.getOrSet
    rw [hmiss, hprod]
  · intro r hfail hprod
    have hmiss : CacheService.get st key = none := by simp [CacheService.get, hfail]
    unfold CacheService.getOrSet
    rw [hmiss, hprod]
    simp [CacheService.set, hfail]

/-- Witness for C2: a hit is served from the cache without touching the
producer; with the backend down the producer's result is returned and the
state is unchanged. -/
theorem c2_witness :
    CacheService.getOrSet ⟨[⟨"user:1", "cachedUser", 900⟩], false⟩ "user:1"
        (fun _ => Except.ok "freshUser") 900
      = (⟨[⟨"user:1", "cachedUser", 900⟩], false⟩, 0, Except.ok "cachedUser") ∧
    CacheService.getOrSet ⟨[], true⟩ "user:1" (fun _ => Except.ok "freshUser") 900
      = (⟨[], true⟩, 1, Except.ok "freshUser") :=
  ⟨(c2_getOrSet_cache_aside ⟨[⟨"user:1", "cachedUser", 900⟩], false⟩ "user:1"
      (fun _ => Except.ok "freshUser") 900).1 "cachedUser" rfl,
   (c2_getOrSet_cache_aside ⟨[], true⟩ "user:1"
      (fun _ => Except.ok "freshUser") 900).2.2 "freshUser" rfl rfl⟩

/-- C9: on a miss, a producer that throws on its first invocation is caught
and invoked a second time; the second invocation's outcome (value or error)
is returned unchanged, and nothing is written to the cache (the state is
returned untouched). -/
theorem c9_getOrSet_retries_producer (st : CacheState) (key : String)
    (producer : Nat → Except PErr String) (ttl : Nat) (e : PErr)
    (hmiss : CacheService.get st key = none) (hprod : producer 0 = Except.error e) :
    CacheService.getOrSet st key producer ttl = (st, 2, producer 1) := by
  unfold CacheService.getOrSet
  rw [hmiss, hprod]

/-- Witness for C9: a read-through producer that fails once (missing id)
and succeeds on the retry; the retry's value comes back, the cache state
is untouched, and the producer ran twice. -/
theorem c9_witness :
    CacheService.get ⟨[], false⟩ "task:42" = none ∧
    CacheService.getOrSet ⟨[], false⟩ "task:42"
        (fun n => if n = 0 then Except.error "Task with id 42 not found"
                  else Except.ok "secondResult") 300
      = (⟨[], false⟩, 2, Except.ok "secondResult") :=
  ⟨rfl,
   c9_getOrSet_retries_producer ⟨[], false⟩ "task:42"
     (fun n => if n = 0 then Except.error "Task with id 42 not found"
               else Except.ok "secondResult") 300
     "Task with id 42 not found" rfl rfl⟩

/-- C3 counterexample: `increment` does NOT fail soft — with the backend
down it rethrows the backend error to its caller, refuting "no CacheLayer
operation ever propagates a cache-backend error". -/
theorem c3_counterexample :
    CacheService.increment ⟨[], true⟩ "hits" 1 = Except.error CacheErr.backend := rfl

/-- C3 (amended): `get` returns `none`, `set` `false`, `delete` `false`,
pattern-delete `0`, `exists` `false` and `ttl` `-1` on a backend error,
none of them raising — but `increment` and `decrement` rethrow the backend
error instead of failing soft. -/
theorem c3_fail_soft_amended (st : CacheState) (key pat v : String) (ttl : Nat)
    (amount : Int) (hfail : st.failed = true) :
    CacheService.get st key = none ∧
    CacheService.set st key v ttl = (st, false) ∧
    CacheService.del st key = (st, false) ∧
    CacheService.delPattern st pat = (st, 0) ∧
    CacheService.existsKey st key = false ∧
    CacheService.ttl st key = -1 ∧
    CacheService.increment st key amount = Except.error CacheErr.backend ∧
    CacheService.decrement st key amount = Except.error CacheErr.backend := by
  simp [CacheService.get, CacheService.set, CacheService.del, CacheService.delPattern,
        CacheService.existsKey, CacheService.ttl, CacheService.increment,
        CacheService.decrement, hfail]

/-- Witness for C3 (amended): the eight behaviors at a concrete failed
backend state. -/
theorem c3_fail_soft_amended_witness :
    (⟨[], true⟩ : CacheState).failed = true ∧
    (CacheService.get ⟨[], true⟩ "k" = none ∧
     CacheService.set ⟨[], true⟩ "k" "v" 60 = (⟨[], true⟩, false) ∧
     CacheService.del ⟨[], true⟩ "k" = (⟨[], true⟩, false) ∧
     CacheService.delPattern ⟨[], true⟩ "user_tasks:u:*" = (⟨[], true⟩, 0) ∧
     CacheService.existsKey ⟨[], true⟩ "k" = false ∧
     CacheService.ttl ⟨[], true⟩ "k" = -1 ∧
     CacheService.increment ⟨[], true⟩ "k" 1 = Except.error CacheErr.backend ∧
     CacheService.decrement ⟨[], true⟩ "k" 1 = Except.error CacheErr.backend) :=
  ⟨rfl, c3_fail_soft_amended ⟨[], true⟩ "k" "user_tasks:u:*" "v" 60 1 rfl⟩

/-- C6 counterexample: a mutation path DOES store a value into the cache —
`TaskService.createTask` writes the newly created task under `task:{id}`
(and `UserService.createUser` behaves likewise), refuting "no mutation
path stores a value into the cache". -/
theorem c6_counterexample :
    ((ServiceOps.createTaskCacheOps "task1" none "serializedTask").any CacheOp.isSet) = true :=
  rfl

/-- C6 (amended): the update, status-change, assign/unassign and delete
paths only delete cache entries (never write); the two create paths are the
exception — each writes the newly created record into its single-record
key (`createTask` then deletes the assignee's list/stat keys when created
assigned). -/
theorem c6_mutations_delete_only (tid uid serialized : String) (oldA newA : Option String) :
    ((ServiceOps.updateUserCacheOps uid).all fun o => !o.isSet) = true ∧
    ((ServiceOps.deleteUserCacheOps uid).all fun o => !o.isSet) = true ∧
    ((ServiceOps.updateTaskCacheOps tid oldA newA).all fun o => !o.isSet) = true ∧
    ((ServiceOps.updateStatusCacheOps tid oldA).all fun o => !o.isSet) = true ∧
    ((ServiceOps.assignTaskCacheOps tid uid).all fun o => !o.isSet) = true ∧
    ((ServiceOps.unassignTaskCacheOps tid oldA).all fun o => !o.isSet) = true ∧
    ((ServiceOps.deleteTaskCacheOps tid oldA).all fun o => !o.isSet) = true ∧
    ServiceOps.createUserCacheOps uid serialized
      = [CacheOp.set ("user:" ++ uid) serialized 900] ∧
    ServiceOps.createTaskCacheOps tid none serialized
      = [CacheOp.set ("task:" ++ tid) serialized 300] ∧
    ServiceOps.createTaskCacheOps tid (some uid) serialized
      = CacheOp.set ("task:" ++ tid) serialized 300 :: ServiceOps.invalidateUserCacheOps uid := by
  cases oldA <;> cases newA <;>
    simp [ServiceOps.updateUserCacheOps, ServiceOps.deleteUserCacheOps,
      ServiceOps.updateTaskCacheOps, ServiceOps.updateStatusCacheOps,
      ServiceOps.assignTaskCacheOps, ServiceOps.unassignTaskCacheOps,
      ServiceOps.deleteTaskCacheOps, ServiceOps.createUserCacheOps,
      ServiceOps.createTaskCacheOps, ServiceOps.invalidateUserCacheOps,
      ServiceOps.invalidateTaskCacheOps, CacheOp.isSet]
  intro x _ hx
  rcases hx with rfl | rfl | rfl <;> rfl

/-- C1: the claim fails on the code.  With owner `userA`'s stats and list
entries cached, `TaskService.assignTask("task1", "userB")` (reassignment to
`userB`) deletes only `task:task1` and `userB`'s entries; `userA`'s entries
survive, and a subsequent stats query for `userA` is served the stale
cached value with zero producer invocations instead of a fresh store
read. -/
theorem c1_assignTask_leaves_old_owner_stale :
    CacheService.get afterAssign "task_stats:userA" = some "staleStats" ∧
    CacheService.get afterAssign "user_tasks:userA:p1" = some "staleList" ∧
    CacheService.get afterAssign "task:task1" = none ∧
    CacheService.getOrSet afterAssign "task_stats:userA"
        (fun _ => Except.ok "freshStats") 60
      = (afterAssign, 0, Except.ok "staleStats") :=
  ⟨rfl, rfl, rfl, rfl⟩

/-- `(T + limit - 1) / limit` is the ceiling of `T / limit`: the unique `q`
with `T ≤ q * limit < T + limit`. -/
theorem ceil_div_bounds (T limit : Nat) (h : 1 ≤ limit) :
    T ≤ ((T + limit - 1) / limit) * limit ∧ ((T + limit - 1) / limit) * limit < T + limit := by
  have h1 := Nat.div_add_mod (T + limit - 1) limit
  have h2 : (T + limit - 1) % limit < limit := Nat.mod_lt _ (by omega)
  constructor
  · rw [Nat.mul_comm]
    generalize hB : limit * ((T + limit - 1) / limit) = B at h1 ⊢
    omega
  · rw [Nat.mul_comm]
    generalize hB : limit * ((T + limit - 1) / limit) = B at h1 ⊢
    omega

/-- C4: for `page ≥ 1` and `limit ≥ 1`, `findAll` skips `(page-1)*limit`
of the matching non-soft-deleted rows, returns at most `limit` items,
reports `total` = the row count, `totalPages` = the ceiling of
`total/limit` (characterized by `total ≤ totalPages*limit < total+limit`),
`hasNext = page < totalPages`, `hasPrevious = page > 1`; and with 25 rows
and `limit = 10`, page 1 gives 10 items (`hasNext`, not `hasPrevious`),
page 3 gives 5 (`hasPrevious`, not `hasNext`), page 4 gives 0 with
`totalPages = 3`. -/
theorem c4_findAll_pagination :
    (∀ (α : Type) (rows : List α) (page limit : Nat), 1 ≤ page → 1 ≤ limit →
      (BaseRepository.findAll rows (some page) (some limit)).data
          = (rows.drop ((page - 1) * limit)).take limit ∧
      (BaseRepository.findAll rows (some page) (some limit)).data.length ≤ limit ∧
      (BaseRepository.findAll rows (some page) (some limit)).total = rows.length ∧
      rows.length
          ≤ (BaseRepository.findAll rows (some page) (some limit)).totalPages * limit ∧
      (BaseRepository.findAll rows (some page) (some limit)).totalPages * limit
          < rows.length + limit ∧
      (BaseRepository.findAll rows (some page) (some limit)).hasNext
          = decide (page < (BaseRepository.findAll rows (some page) (some limit)).totalPages) ∧
      (BaseRepository.findAll rows (some page) (some limit)).hasPrevious
          = decide (1 < page)) ∧
    ((BaseRepository.findAll (List.range 25) (some 1) (some 10)).data.length = 10 ∧
     (BaseRepository.findAll (List.range 25) (some 1) (some 10)).hasNext = true ∧
     (BaseRepository.findAll (List.range 25) (some 1) (some 10)).hasPrevious = false ∧
     (BaseRepository.findAll (List.range 25) (some 3) (some 10)).data.length = 5 ∧
     (BaseRepository.findAll (List.range 25) (some 3) (some 10)).hasNext = false ∧
     (BaseRepository.findAll (List.range 25) (some 3) (some 10)).hasPrevious = true ∧
     (BaseRepository.findAll (List.range 25) (some 4) (some 10)).data.length = 0 ∧
     (BaseRepository.findAll (List.range 25) (some 4) (some 10)).totalPages = 3) := by
  constructor
  · intro α rows page limit hp hl
    have hp0 : ¬ page = 0 := by omega
    have hl0 : ¬ limit = 0 := by omega
    have hceil := ceil_div_bounds rows.length limit hl
    refine ⟨?_, ?_, ?_, ?_, ?_, ?_, ?_⟩
    · simp [BaseRepository.findAll, hp0, hl0]
    · simp only [BaseRepository.findAll, hp0, hl0, if_false, List.length_take]
      omega
    · simp [BaseRepository.findAll, hp0, hl0]
    · simpa only [BaseRepository.findAll, hp0, hl0, if_false] using hceil.1
    · simpa only [BaseRepository.findAll, hp0, hl0, if_false] using hceil.2
    · simp [BaseRepository.findAll, hp0, hl0]
    · simp [BaseRepository.findAll, hp0, hl0]
  · decide

/-- Witness for C4: the general part applied at 12 rows, page 2, limit 5. -/
theorem c4_witness :
    (1 ≤ 2 ∧ 1 ≤ 5) ∧
    ((BaseRepository.findAll (List.range 12) (some 2) (some 5)).data
        = ((List.range 12).drop 5).take 5 ∧
     (BaseRepository.findAll (List.range 12) (some 2) (some 5)).data.length ≤ 5 ∧
     (BaseRepository.findAll (List.range 12) (some 2) (some 5)).total = (List.range 12).length ∧
     (List.range 12).length
        ≤ (BaseRepository.findAll (List.range 12) (some 2) (some 5)).totalPages * 5 ∧
     (BaseRepository.findAll (List.range 12) (some 2) (some 5)).totalPages * 5
        < (List.range 12).length + 5 ∧
     (BaseRepository.findAll (List.range 12) (some 2) (some 5)).hasNext
        = decide (2 < (BaseRepository.findAll (List.range 12) (some 2) (some 5)).totalPages) ∧
     (BaseRepository.findAll (List.range 12) (some 2) (some 5)).hasPrevious
        = decide (1 < 2)) :=
  ⟨⟨by decide, by decide⟩,
   c4_findAll_pagination.1 Nat (List.range 12) 2 5 (by decide) (by decide)⟩

/-- C7: `restore(id)` is a no-op returning `false` whenever no row with that
id is soft-deleted (the row is live, or absent entirely), and it returns
`true` exactly when it cleared a non-null `deletedAt` marker. -/
theorem c7_restore_only_soft_deleted {α : Type} (s : Store α) (id : String) :
    ((∀ x ∈ s, x.id = id → x.deletedAt = none) →
      BaseRepository.restore s id = (s, false)) ∧
    ((BaseRepository.restore s id).2 = true
      ↔ ∃ x ∈ s, x.id = id ∧ x.deletedAt ≠ none) := by
  constructor
  · intro h
    have hmap : s.map
        (fun r => if r.id == id && !r.deletedAt.isNone then { r with deletedAt := none } else r)
          = s := by
      have hfix : ∀ a ∈ s,
          (if a.id == id && !a.deletedAt.isNone then { a with deletedAt := none } else a) = a := by
        intro a ha
        by_cases hid : a.id = id
        · have hnone : a.deletedAt = none := h a ha hid
          simp [hid, hnone]
        · simp [hid]
      have := List.map_congr_left (g := fun r => r) hfix
      simpa using this
    have hfilter : s.filter (fun r => r.id == id && !r.deletedAt.isNone) = [] := by
      rw [List.filter_eq_nil_iff]
      intro a ha
      by_cases hid : a.id = id
      · have hnone : a.deletedAt = none := h a ha hid
        simp [hid, hnone]
      · simp [hid]
    show ((s.map
        fun r => if r.id == id && !r.deletedAt.isNone then { r with deletedAt := none } else r),
      decide ((s.filter fun r => r.id == id && !r.deletedAt.isNone).length > 0)) = (s, false)
    rw [hmap, hfilter]
    rfl
  · unfold BaseRepository.restore ormRestore
    simp only [decide_eq_true_eq, gt_iff_lt, ← List.countP_eq_length_filter]
    rw [List.countP_pos_iff]
    constructor
    · rintro ⟨a, ha, hp⟩
      refine ⟨a, ha, ?_, ?_⟩
      · have := (Bool.and_eq_true _ _).mp hp
        exact beq_iff_eq.mp this.1
      · have := (Bool.and_eq_true _ _).mp hp
        intro hnone
        rw [hnone] at this
        simp at this
    · rintro ⟨a, ha, hid, hdel⟩
      refine ⟨a, ha, ?_⟩
      have : a.deletedAt.isNone = false := by
        cases hda : a.deletedAt
        · exact absurd hda hdel
        · rfl
      simp [hid, this]

/-- Witness for C7: on a two-row table, restoring a live row's id is a
no-op returning `false`, and restoring a soft-deleted row's id reports
`true`. -/
theorem c7_witness :
    (BaseRepository.restore ([⟨"a", 0, 0, 0, none⟩] : Store Nat) "a"
        = ([⟨"a", 0, 0, 0, none⟩], false)) ∧
    ((BaseRepository.restore ([⟨"a", 0, 0, 0, none⟩, ⟨"b", 1, 0, 0, some 7⟩] : Store Nat) "b").2
        = true) :=
  ⟨(c7_restore_only_soft_deleted ([⟨"a", 0, 0, 0, none⟩] : Store Nat) "a").1 (by decide),
   (c7_restore_only_soft_deleted
      ([⟨"a", 0, 0, 0, none⟩, ⟨"b", 1, 0, 0, some 7⟩] : Store Nat) "b").2.mpr
     ⟨⟨"b", 1, 0, 0, some 7⟩, by decide, rfl, by decide⟩⟩

/-- C8 counterexample: the failure `update` raises for an unresolvable id
is a plain `Error` with no `statusCode`, and the `errorHandler` middleware
maps it — exactly like the repository's wrapped constraint-violation and
connectivity failures, plain `Error`s too — to the same user-facing status
500, so NotFound, Conflict and BackendUnavailable are not error kinds a
caller can distinguish in the program's status mapping. -/
theorem c8_counterexample :
    BaseRepository.update ([] : Store Nat) "42" (fun n => n) 0
      = Except.error (plainError "Failed to update entity: Entity with id 42 not found") ∧
    (plainError "Failed to update entity: Entity with id 42 not found").statusCode = none ∧
    errorHandlerStatus
        (plainError "Failed to update entity: Entity with id 42 not found") = 500 ∧
    errorHandlerStatus
        (plainError "Failed to create entity: duplicate key value violates unique constraint")
      = 500 ∧
    errorHandlerStatus (plainError "Failed to update entity: connection refused") = 500 :=
  ⟨rfl, rfl, rfl, rfl, rfl⟩

/-- C8 (amended): for every id that does not resolve to a live
(non-soft-deleted) row, `update(id, partial)` fails, throwing the plain
`Error` `Failed to update entity: Entity with id {id} not found`; but the
program has no distinct NotFound/Conflict/BackendUnavailable error kinds —
the repository wraps every failure into a plain `Error` without a
`statusCode`, and the `errorHandler` middleware maps every such error to
the single user-facing status 500. -/
theorem c8_update_error_uniform_status {α : Type} (s : Store α) (id : String)
    (patch : α → α) (now : Nat) (h : ¬ ∃ x ∈ s, x.id = id ∧ x.deletedAt = none) :
    BaseRepository.update s id patch now
      = Except.error
          (plainError ("Failed to update entity: Entity with id " ++ id ++ " not found")) ∧
    (plainError ("Failed to update entity: Entity with id " ++ id ++ " not found")).statusCode
      = none ∧
    (∀ msg : String, errorHandlerStatus (plainError msg) = 500) := by
  refine ⟨?_, rfl, fun msg => rfl⟩
  have hfind : BaseRepository.findById s id = none := by
    unfold BaseRepository.findById ormFindOne
    rw [List.find?_eq_none]
    intro x hx
    intro hp
    apply h
    have hand := (Bool.and_eq_true _ _).mp hp
    refine ⟨x, hx, beq_iff_eq.mp hand.1, ?_⟩
    cases hda : x.deletedAt
    · rfl
    · rw [hda] at hand
      simp at hand
  unfold BaseRepository.update
  rw [hfind]

/-- Witness for C8 (amended): updating a soft-deleted row's id on a
one-row table fails with the plain wrapped not-found `Error`, which — like
every plain repository error — the errorHandler maps to 500. -/
theorem c8_witness :
    BaseRepository.update ([⟨"a", 5, 0, 0, some 3⟩] : Store Nat) "a" (fun n => n + 1) 9
        = Except.error (plainError "Failed to update entity: Entity with id a not found") ∧
    (plainError "Failed to update entity: Entity with id a not found").statusCode = none ∧
    (∀ msg : String, errorHandlerStatus (plainError msg) = 500) :=
  c8_update_error_uniform_status ([⟨"a", 5, 0, 0, some 3⟩] : Store Nat) "a"
    (fun n => n + 1) 9 (by decide)

/-- `find?` only depends on the predicate's values on the list's members. -/
theorem find?_congr_mem {α : Type} {p q : α → Bool} :
    ∀ (l : List α), (∀ x ∈ l, p x = q x) → l.find? p = l.find? q := by
  intro l
  induction l with
  | nil => intro _; rfl
  | cons a t ih =>
    intro h
    have ha := h a (List.mem_cons_self a t)
    cases hq : q a
    · rw [List.find?_cons_of_neg _ (by simp [ha, hq]),
          List.find?_cons_of_neg _ (by simp [hq])]
      exact ih (fun x hx => h x (List.mem_cons_of_mem a hx))
    · rw [List.find?_cons_of_pos _ (by simp [ha, hq]),
          List.find?_cons_of_pos _ (by simp [hq])]

/-- In a table with no duplicate ids, searching a member's id finds exactly
that member. -/
theorem find?_id_unique {α : Type} :
    ∀ (s : Store α) (r : Row α), (s.map Row.id).Nodup → r ∈ s →
      s.find? (fun x => x.id == r.id) = some r := by
  intro s
  induction s with
  | nil => intro r _ hmem; exact absurd hmem (List.not_mem_nil r)
  | cons a t ih =>
    intro r hnodup hmem
    rw [List.map_cons, List.nodup_cons] at hnodup
    rcases List.mem_cons.mp hmem with rfl | hmemt
    · exact List.find?_cons_of_pos _ (by simp)
    · have haid : ¬ a.id = r.id := fun he =>
        hnodup.1 (he ▸ List.mem_map_of_mem Row.id hmemt)
      rw [List.find?_cons_of_neg _ (by simp [haid])]
      exact ih r hnodup.2 hmemt

/-- After `softDelete(id)`, the default-scope `findById(id)` misses: every
row carrying that id is now soft-deleted. -/
theorem findById_softDelete_none {α : Type} (s : Store α) (id : String) (now : Nat) :
    BaseRepository.findById (BaseRepository.softDelete s id now).1 id = none := by
  unfold BaseRepository.findById BaseRepository.softDelete ormFindOne ormSoftDelete
  rw [List.find?_eq_none]
  intro x hx
  rw [List.mem_map] at hx
  obtain ⟨r, _, rfl⟩ := hx
  by_cases hc : (r.id == id && r.deletedAt.isNone) = true
  · rw [if_pos hc]
    simp
  · rw [if_neg hc]
    exact hc

/-- A live row is no longer among the live rows once its id is
soft-deleted (duplicate-free ids). -/
theorem not_live_after_softDelete {α : Type} (s : Store α) (r : Row α) (now : Nat)
    (_hnodup : (s.map Row.id).Nodup) (hmem : r ∈ s) (hlive : r.deletedAt = none) :
    r ∉ BaseRepository.liveRows (BaseRepository.softDelete s r.id now).1 := by
  intro hcontra
  unfold BaseRepository.liveRows BaseRepository.softDelete ormSoftDelete at hcontra
  rw [List.mem_filter] at hcontra
  obtain ⟨hmem1, _⟩ := hcontra
  rw [List.mem_map] at hmem1
  obtain ⟨x, hx, hfx⟩ := hmem1
  by_cases hc : (x.id == r.id && x.deletedAt.isNone) = true
  · rw [if_pos hc] at hfx
    have : r.deletedAt = some now := by rw [← hfx]
    rw [hlive] at this
    exact Option.noConfusion this
  · rw [if_neg hc] at hfx
    subst hfx
    exact hc (by simp [hlive])

/-- Soft-deleting a live row and then restoring its id brings exactly that
row back into default scope, with only `deletedAt` (re)cleared. -/
theorem findById_restore_roundtrip {α : Type} (s : Store α) (r : Row α) (now : Nat)
    (hnodup : (s.map Row.id).Nodup) (hmem : r ∈ s) (hlive : r.deletedAt = none) :
    BaseRepository.findById
        (BaseRepository.restore (BaseRepository.softDelete s r.id now).1 r.id).1 r.id
      = some { r with deletedAt := none } := by
  unfold BaseRepository.findById BaseRepository.restore BaseRepository.softDelete
  unfold ormFindOne ormRestore ormSoftDelete
  rw [List.map_map, List.find?_map]
  rw [find?_congr_mem _ (q := fun x => x.id == r.id) ?_]
  · rw [find?_id_unique s r hnodup hmem, Option.map_some']
    simp [Function.comp, hlive]
  · intro x _
    simp only [Function.comp_apply]
    by_cases hid : x.id = r.id
    · by_cases hxl : x.deletedAt.isNone = true
      · simp [hid, hxl]
      · have hxl2 : x.deletedAt.isNone = false := by
          cases h2 : x.deletedAt.isNone
          · rfl
          · exact absurd h2 hxl
        simp [hid, hxl2]
    · simp [hid]

/-- C5: after `softDelete(id)` on a live record, default-scope
`findById(id)` returns nothing and the record is absent from every default
`findAll` page; a subsequent `restore(id)` makes `findById(id)` return the
record again with every non-timestamp field (indeed everything except the
cleared `deletedAt`) equal to its pre-delete value. -/
theorem c5_softDelete_restore_roundtrip {α : Type} (s : Store α) (r : Row α) (now : Nat)
    (hnodup : (s.map Row.id).Nodup) (hmem : r ∈ s) (hlive : r.deletedAt = none) :
    BaseRepository.findById (BaseRepository.softDelete s r.id now).1 r.id = none ∧
    (∀ (p l : Nat),
      r ∉ (BaseRepository.findAll
            (BaseRepository.liveRows (BaseRepository.softDelete s r.id now).1)
            (some p) (some l)).data) ∧
    BaseRepository.findById
        (BaseRepository.restore (BaseRepository.softDelete s r.id now).1 r.id).1 r.id
      = some { r with deletedAt := none } := by
  refine ⟨findById_softDelete_none s r.id now, ?_, findById_restore_roundtrip s r now hnodup hmem hlive⟩
  intro p l hmemd
  exact not_live_after_softDelete s r now hnodup hmem hlive
    (List.mem_of_mem_drop (List.mem_of_mem_take hmemd))

/-- Witness for C5: a concrete two-row table; soft-deleting then restoring
row `a` behaves as the claim states. -/
theorem c5_witness :
    BaseRepository.findById
        (BaseRepository.softDelete ([⟨"a", 10, 1, 2, none⟩, ⟨"b", 20, 1, 2, none⟩] : Store Nat)
          "a" 5).1 "a" = none ∧
    (∀ (p l : Nat),
      (⟨"a", 10, 1, 2, none⟩ : Row Nat)
        ∉ (BaseRepository.findAll
            (BaseRepository.liveRows
              (BaseRepository.softDelete
                ([⟨"a", 10, 1, 2, none⟩, ⟨"b", 20, 1, 2, none⟩] : Store Nat) "a" 5).1)
            (some p) (some l)).data) ∧
    BaseRepository.findById
        (BaseRepository.restore
          (BaseRepository.softDelete ([⟨"a", 10, 1, 2, none⟩, ⟨"b", 20, 1, 2, none⟩] : Store Nat)
            "a" 5).1 "a").1 "a"
      = some ⟨"a", 10, 1, 2, none⟩ :=
  c5_softDelete_restore_roundtrip ([⟨"a", 10, 1, 2, none⟩, ⟨"b", 20, 1, 2, none⟩] : Store Nat)
    ⟨"a", 10, 1, 2, none⟩ 5 (by decide) (by decide) rfl

/-- C10: the JS `||` on two truthy enum strings evaluates to the left one,
so the overdue status filter is exactly the single status TODO: every task
`findOverdue` returns has status TODO, a past-due IN_PROGRESS task is
omitted, and the `overdue` component of `getUserTaskStats` counts only
past-due TODO tasks. -/
theorem c10_overdue_filters_todo_only (s : Store TaskFields) (now : Nat) (uid : String)
    (p l : Nat) (t : Row TaskFields) :
    overdueStatusFilter = TaskStatus.TODO.val ∧
    (t ∈ (TaskRepository.findOverdue s now (some p) (some l)).data →
      t.fields.status = TaskStatus.TODO) ∧
    (t.fields.status = TaskStatus.IN_PROGRESS →
      t ∉ (TaskRepository.findOverdue s now (some p) (some l)).data) ∧
    (TaskRepository.getUserTaskStats s uid now).overdue
      = ((BaseRepository.liveRows s).filter (fun x =>
          x.fields.assigneeId == some uid
            && (match x.fields.dueDate with
                | some d => decide (d < now)
                | none => false)
            && x.fields.status.val == TaskStatus.TODO.val)).length := by
  have hmem : ∀ x : Row TaskFields,
      x ∈ (TaskRepository.findOverdue s now (some p) (some l)).data →
      x.fields.status = TaskStatus.TODO := by
    intro x hx
    have h1 : x ∈ (BaseRepository.liveRows s).filter (TaskRepository.overdueWhere now) :=
      List.mem_of_mem_drop (List.mem_of_mem_take hx)
    have h2 := List.of_mem_filter h1
    unfold TaskRepository.overdueWhere at h2
    have h3 := ((Bool.and_eq_true _ _).mp h2).2
    have h4 : x.fields.status.val = overdueStatusFilter := beq_iff_eq.mp h3
    cases hst : x.fields.status <;> rw [hst] at h4 <;> first | rfl | exact absurd h4 (by decide)
  refine ⟨rfl, hmem t, ?_, rfl⟩
  intro hip hx
  have := hmem t hx
  rw [hip] at this
  exact TaskStatus.noConfusion this

/-- Witness for C10: on the two-task demo table (one past-due TODO task,
one past-due IN_PROGRESS task) the IN_PROGRESS task is omitted from
`findOverdue` and the stats count only the TODO one. -/
theorem c10_witness :
    demoTodoTask.fields.status = TaskStatus.TODO ∧
    demoInProgressTask ∉ (TaskRepository.findOverdue demoTaskStore 10 (some 1) (some 10)).data ∧
    (TaskRepository.getUserTaskStats demoTaskStore "u1" 10).overdue = 1 :=
  ⟨(c10_overdue_filters_todo_only demoTaskStore 10 "u1" 1 10 demoTodoTask).2.1 (by decide),
   (c10_overdue_filters_todo_only demoTaskStore 10 "u1" 1 10 demoInProgressTask).2.2.1 rfl,
   by decide⟩
